import Mathlib

/-!
Formal model of the s3_upload repository (jethror1/s3_upload).

Each definition is a shallow embedding of a function of the Python source,
translated as written; the theorems at the end of the file settle the
claims of the natural-language specification against these definitions.
Python dicts are modelled as association lists in insertion order, Python
strings as `String`, and the file system, where a function touches it, as
explicit arguments (the parsed prior content of a file) or as an explicit
list of file operations.
-/

namespace S3Upload

/-- Model of the Python dict merge `{**old, **new}` on string-keyed dicts
represented as association lists in insertion order: every key of `old`
keeps its place with its value replaced when `new` also binds the key, and
the keys of `new` absent from `old` are appended in their order. -/
def dictUpdate (old new : List (String × String)) : List (String × String) :=
  (old.map (fun kv =>
    match new.find? (fun kv2 => kv2.1 == kv.1) with
    | some kv2 => (kv.1, kv2.2)
    | none => kv))
  ++ new.filter (fun kv2 => ! old.any (fun kv => kv.1 == kv2.1))

/-- Record persisted by `write_upload_state_to_log`
(src/s3_upload/utils/io.py): the JSON object keys `run_id`, `run path`,
`completed`, `total_local_files`, `total_uploaded_files`,
`total_failed_upload`, `failed_upload_files` and `uploaded_files` become
the fields, with the uploaded-files dict kept as an association list. -/
structure StateRecord where
  run_id : String
  run_path : String
  completed : Bool
  total_local_files : Nat
  total_uploaded_files : Nat
  total_failed_upload : Nat
  failed_upload_files : List String
  uploaded_files : List (String × String)
deriving DecidableEq

/-- Shallow embedding of `write_upload_state_to_log`
(src/s3_upload/utils/io.py lines 204-299) with the file system made
explicit: `prior` is the parsed content of `log_file` when that file
exists (the `os.path.exists(log_file)` branch), `none` otherwise.  The
returned record is the one the source serializes back to `log_file` and
returns.  Note that the source increments the stored counter
(`log_data["total_uploaded_files"] += total_uploaded_files`, line 278)
and compares `total_local_files` against that counter (line 288). -/
def write_upload_state_to_log (run_id run_path : String)
    (prior : Option StateRecord) (local_files : List String)
    (uploaded_files : List (String × String)) (failed_files : List String) :
    StateRecord :=
  let total_local_files := local_files.length
  let total_uploaded_files := uploaded_files.length
  let total_failed_upload := failed_files.length
  let log_data : StateRecord :=
    match prior with
    | some d => d
    | none =>
        { run_id := run_id, run_path := run_path, completed := false,
          total_local_files := total_local_files,
          total_uploaded_files := 0, total_failed_upload := 0,
          failed_upload_files := [], uploaded_files := [] }
  let log_data :=
    { log_data with
      total_uploaded_files := log_data.total_uploaded_files + total_uploaded_files,
      total_failed_upload := total_failed_upload,
      failed_upload_files := failed_files,
      uploaded_files := dictUpdate log_data.uploaded_files uploaded_files }
  if total_failed_upload = 0 ∧ total_local_files = log_data.total_uploaded_files then
    { log_data with completed := true }
  else
    log_data

/-- Arguments of one call to `write_upload_state_to_log` (one upload
attempt for a run), used to reason about sequences of calls. -/
structure UploadAttempt where
  run_id : String
  run_path : String
  local_files : List String
  uploaded_files : List (String × String)
  failed_files : List String

/-- One call to `write_upload_state_to_log` applied to the persisted
state, `prior` being the current content of the log file. -/
def applyAttempt (prior : Option StateRecord) (a : UploadAttempt) : StateRecord :=
  write_upload_state_to_log a.run_id a.run_path prior a.local_files
    a.uploaded_files a.failed_files

/-- Folding a sequence of further calls to `write_upload_state_to_log`
over an already persisted record: each call reads the record the previous
call wrote. -/
def runAttempts (d : StateRecord) (attempts : List UploadAttempt) : StateRecord :=
  attempts.foldl (fun acc a => applyAttempt (some acc) a) d

/-- File operations relevant to how the state log reaches the disk. -/
inductive FileOp where
  | openTruncWrite (path : String)
  | writeRecord (path : String) (data : StateRecord)
  | close (path : String)
  | rename (src dst : String)
deriving DecidableEq

/-- File operations performed by the persistence step of
`write_upload_state_to_log` (src/s3_upload/utils/io.py lines 296-297):
`open(log_file, "w")` opens the target itself with truncation,
`json.dump(log_data, fh, indent=4)` writes the record into it, and the
`with` block closes it. -/
def write_upload_state_file_ops (run_id run_path : String)
    (prior : Option StateRecord) (log_file : String)
    (local_files : List String) (uploaded_files : List (String × String))
    (failed_files : List String) : List FileOp :=
  let r := write_upload_state_to_log run_id run_path prior local_files
    uploaded_files failed_files
  [FileOp.openTruncWrite log_file, FileOp.writeRecord log_file r,
    FileOp.close log_file]

/-- Formalization of the claimed commit discipline: the record is written
to some sibling temporary path distinct from the target and then renamed
over the target (the rename being the commit point), the target itself
never being opened for truncating write. -/
def CommitsViaTempRename (ops : List FileOp) (target : String) : Prop :=
  ∃ tmp, tmp ≠ target ∧ FileOp.openTruncWrite tmp ∈ ops ∧
    FileOp.rename tmp target ∈ ops ∧ FileOp.openTruncWrite target ∉ ops

/-- Consecutive slices `files[i : i + n]` for `i in range(0, len(files), n)`
(src/s3_upload/utils/utils.py line 396); `range(0, m, n)` has
`(m + n - 1) / n` elements when `n ≥ 1`. -/
def splitChunks (files : List String) (n : Nat) : List (List String) :=
  (List.range ((files.length + n - 1) / n)).map
    (fun i => (files.drop (i * n)).take n)

/-- Length of the longest chunk: `itertools.zip_longest` yields one tuple
per index of the longest of its arguments. -/
def maxChunkLen (chunks : List (List String)) : Nat :=
  chunks.foldr (fun c m => max c.length m) 0

/-- Tuple number `j` of `zip_longest(*chunks)` after the comprehension
`[x for x in y if x]` (src/s3_upload/utils/utils.py line 397): the `j`-th
element of every chunk that has one, the `None` padding and any entry that
is falsy (the empty string) dropped. -/
def zipLongestColumn (chunks : List (List String)) (j : Nat) : List String :=
  chunks.filterMap (fun c =>
    match c.get? j with
    | some s => if s = "" then none else some s
    | none => none)

/-- Shallow embedding of `split_file_list_by_cores`
(src/s3_upload/utils/utils.py lines 374-399): chunk the list into
consecutive groups of `n`, then transpose with `zip_longest`, dropping
padding (and other falsy entries). -/
def split_file_list_by_cores (files : List String) (n : Nat) : List (List String) :=
  (List.range (maxChunkLen (splitChunks files n))).map
    (zipLongestColumn (splitChunks files n))

/-- Recursive presentation of the chunking used for proofs: `k` chunks,
each the next `n` elements.  `splitChunks files n = chunksN K n files`
with `K = (files.length + n - 1) / n` (`chunksN_eq_splitChunks`). -/
def chunksN : Nat → Nat → List String → List (List String)
  | 0, _, _ => []
  | k + 1, n, files => files.take n :: chunksN k n (files.drop n)

/-- Modelled from the spec: the notification formatter `format_message`
invoked by the orchestrator (`slack.format_message`,
src/s3_upload/s3_upload.py lines 382 and 387) and exercised by
src/tests/unit/test_slack.py is absent from src/s3_upload/utils/slack.py
(which only holds the older `format_complete_message`); its body is
modelled from spec section 4.9: a success block prefixed
`:white_check_mark: S3 Upload: Successfully uploaded {n} runs` with one
`\n\t:black_square: ` item per run id, a failure block prefixed
`:x: S3 Upload: Failed uploading {n} runs` with the same item format,
the two blocks separated by a blank line when both are present, and the
empty string when both inputs are empty. -/
def format_message (completed failed : List String) : String :=
  let successBlock := ":white_check_mark: S3 Upload: Successfully uploaded "
    ++ toString completed.length ++ " runs"
    ++ String.join (completed.map (fun r => "\n\t:black_square: " ++ r))
  let failBlock := ":x: S3 Upload: Failed uploading "
    ++ toString failed.length ++ " runs"
    ++ String.join (failed.map (fun r => "\n\t:black_square: " ++ r))
  if completed ≠ [] ∧ failed ≠ [] then successBlock ++ "\n\n" ++ failBlock
  else if completed ≠ [] then successBlock
  else if failed ≠ [] then failBlock
  else ""

/-- Test that a samplesheet line begins with the literal `Sample_ID`
(`l.startswith("Sample_ID")`, src/s3_upload/utils/utils.py line 325). -/
def startsWithSampleID (l : String) : Bool :=
  List.isPrefixOf "Sample_ID".toList l.toList

/-- First comma-separated field of a line (`x.split(",")[0]`,
src/s3_upload/utils/utils.py line 337). -/
def firstCommaField (x : String) : String :=
  String.mk (x.toList.takeWhile (fun c => c != ','))

/-- Shallow embedding of `get_samplenames_from_samplesheet`
(src/s3_upload/utils/utils.py lines 309-341): collect
`contents.index(l) + 1` for every line `l` beginning with `Sample_ID`
(`list.index` returns the first occurrence), demand exactly one such
index, and return the first comma field of every later line. -/
def get_samplenames_from_samplesheet (contents : List String) :
    Option (List String) :=
  let first_sample_index :=
    (contents.filter startsWithSampleID).map
      (fun l => contents.indexOf l + 1)
  if first_sample_index.length ≠ 1 then none
  else
    some (((contents.drop (first_sample_index.headD 0)).map firstCommaField))

/-- Shallow embedding of `check_all_uploadable_samples`
(src/s3_upload/utils/utils.py lines 108-154).  The external regex engine
is abstracted by the predicate `matchesPattern`, standing for the
truthiness of `re.search(sample_pattern, name)`; an empty or failed
extraction (a falsy `sample_names`) yields `none`, otherwise
`all([re.search(sample_pattern, x) for x in sample_names])` decides. -/
def check_all_uploadable_samples (contents : List String)
    (matchesPattern : String → Bool) : Option Bool :=
  match get_samplenames_from_samplesheet contents with
  | none => none
  | some sample_names =>
    if sample_names = [] then none
    else some (sample_names.all matchesPattern)

/-- Property of an enumeration function standing for CPython's iteration
over a `set` of strings: it lists every element of the set exactly once,
in an order the language does not specify (it depends on the string hash
randomization). -/
def ValidSetEnum (enum : Finset String → List String) : Prop :=
  ∀ s : Finset String, (enum s).Nodup ∧ (enum s).toFinset = s

/-- Shallow embedding of `filter_uploaded_files`
(src/s3_upload/utils/utils.py lines 344-371):
`list(set(local_files) - set(uploaded_files))`, with `enum` the
set-iteration order of the running interpreter (any `ValidSetEnum`). -/
def filter_uploaded_files (enum : Finset String → List String)
    (local_files uploaded_files : List String) : List String :=
  enum (local_files.toFinset \ uploaded_files.toFinset)

/-- Value of a JSON config entry as the Python runtime sees it where an
integer is expected: either an actual `int`, or — through the missing
call parentheses in `config.get("max_cores", cpu_count)`
(src/s3_upload/s3_upload.py line 211) — the builtin function object
`os.cpu_count` itself. -/
inductive PyCores where
  | int (n : Int)
  | cpuCountFunc
deriving DecidableEq

/-- Whether a `PyCores` value is a Python `int`
(`isinstance(..., int)`). -/
def PyCores.isInt : PyCores → Bool
  | .int _ => true
  | .cpuCountFunc => false

/-- One entry of the config's `monitor` array (spec section 6). -/
structure MonitorEntry where
  monitored_directories : List String
  bucket : String
  remote_path : String
  sample_regex : Option String

/-- Config fields consulted by `verify_config` and
`monitor_directories_for_upload`.  `max_cores` and `max_threads` hold the
parsed JSON value when the key is present. -/
structure Config where
  max_cores : Option Int
  max_threads : Option Int
  log_dir : Option String
  monitor : List MonitorEntry

/-- Shallow embedding of `verify_config`
(src/s3_upload/utils/utils.py lines 415-477), returning the aggregated
error list (the function raises iff the list is non-empty).  A missing
`max_cores`/`max_threads` defaults to `0`, which passes the
`isinstance(..., int)` check; `validRegex` abstracts
`re.compile` succeeding on a pattern. -/
def verify_config_errors (validRegex : String → Bool) (c : Config) :
    List String :=
  (if (PyCores.int (c.max_cores.getD 0)).isInt then []
   else ["max_cores must be an integer"])
  ++ (if (PyCores.int (c.max_threads.getD 0)).isInt then []
   else ["max_threads must be an integer"])
  ++ (match c.log_dir with
      | none => ["required parameter log_dir not defined"]
      | some d => if d = "" then ["required parameter log_dir not defined"] else [])
  ++ (if c.monitor.isEmpty then ["required parameter monitor not defined"] else [])
  ++ (c.monitor.enum.map (fun im =>
        let idx := im.1
        let monitor := im.2
        (if monitor.monitored_directories = [] then
          ["required parameter monitored_directories missing from monitor section "
            ++ toString idx] else [])
        ++ (if monitor.bucket = "" then
          ["required parameter bucket missing from monitor section "
            ++ toString idx] else [])
        ++ (if monitor.remote_path = "" then
          ["required parameter remote_path missing from monitor section "
            ++ toString idx] else [])
        ++ (match monitor.sample_regex with
            | none => []
            | some r =>
              if r = "" then []
              else if validRegex r then []
              else ["Invalid regex pattern provided in monitor section "
                ++ toString idx ++ ": " ++ r]))).flatten

/-- Value bound to `cores` in `monitor_directories_for_upload`
(src/s3_upload/s3_upload.py line 211): `config.get("max_cores", cpu_count)`
— the default is the function object `cpu_count`, not `cpu_count()`. -/
def monitor_cores (c : Config) : PyCores :=
  match c.max_cores with
  | some k => PyCores.int k
  | none => PyCores.cpuCountFunc

/-- Partitioning step as called from monitor mode
(src/s3_upload/s3_upload.py lines 307-309) with the dynamic typing of the
shard count made explicit: `range(0, len(files), n)` raises `TypeError`
when `n` is not an `int` and `ValueError` when it is `0`; a negative step
makes the range empty, so no chunks and no shards. -/
def split_file_list_by_cores_py (files : List String) :
    PyCores → Except String (List (List String))
  | PyCores.int k =>
    if k = 0 then Except.error "ValueError: range() arg 3 must not be zero"
    else if 0 < k then Except.ok (split_file_list_by_cores files k.toNat)
    else Except.ok []
  | PyCores.cpuCountFunc =>
    Except.error
      "TypeError: builtin_function_or_method object cannot be interpreted as an integer"

/-- Atom of the fragment of Python regular expressions that arises from
interpolating a parent path into `rf"^{parent_path}"`
(src/s3_upload/utils/upload.py line 119): a literal character or `.`. -/
inductive RAtom where
  | lit (c : Char)
  | dot
deriving DecidableEq

/-- Quantifier carried by an atom: exactly once, `*`, `+` or `?`. -/
inductive RQuant where
  | one
  | star
  | plus
  | opt
deriving DecidableEq

/-- Single-character test of an atom (`.` matches anything but a
newline, Python's default without `re.DOTALL`). -/
def matchAtom : RAtom → Char → Bool
  | RAtom.lit d, c => c == d
  | RAtom.dot, c => c != '\n'

/-- Parser of the modelled regex fragment: literal characters, `.`, and
the postfix quantifiers `*`, `+`, `?` applied to the preceding atom.
Any other regex metacharacter — or a quantifier with nothing to bind to —
falls outside the fragment and yields `none`. -/
def parsePatternAux : List Char → List (RAtom × RQuant) →
    Option (List (RAtom × RQuant))
  | [], acc => some acc.reverse
  | c :: rest, acc =>
    if c = '*' ∨ c = '+' ∨ c = '?' then
      match acc with
      | [] => none
      | (a, RQuant.one) :: accRest =>
        parsePatternAux rest
          ((a, if c = '*' then RQuant.star
               else if c = '+' then RQuant.plus
               else RQuant.opt) :: accRest)
      | _ => none
    else if c = '.' then parsePatternAux rest ((RAtom.dot, RQuant.one) :: acc)
    else if c = '(' ∨ c = ')' ∨ c = '[' ∨ c = ']' ∨ c = '\x7b' ∨ c = '\x7d'
        ∨ c = '|' ∨ c = '\\' ∨ c = '^' ∨ c = '$' then none
    else parsePatternAux rest ((RAtom.lit c, RQuant.one) :: acc)

/-- Parse a whole pattern string into the modelled fragment. -/
def parsePattern (pattern : String) : Option (List (RAtom × RQuant)) :=
  parsePatternAux pattern.toList []

/-- Backtracking matcher of the fragment, anchored at the start of the
subject: the remainder of the subject after the leftmost match of the
element list at position 0, `none` when there is none.  Greedy
quantifiers try the longer consumption first and backtrack, as Python's
engine does.  Recursion is bounded by `fuel`: every recursive call
strictly decreases the sum of the element-list length and the subject
length, so any fuel above that sum never runs out. -/
def reMatchFuel : Nat → List (RAtom × RQuant) → List Char → Option (List Char)
  | 0, _, _ => none
  | _ + 1, [], s => some s
  | fuel + 1, (a, RQuant.one) :: rest, s =>
    match s with
    | [] => none
    | c :: t => if matchAtom a c then reMatchFuel fuel rest t else none
  | fuel + 1, (a, RQuant.opt) :: rest, s =>
    (match s with
     | [] => none
     | c :: t => if matchAtom a c then reMatchFuel fuel rest t else none)
    <|> reMatchFuel fuel rest s
  | fuel + 1, (a, RQuant.plus) :: rest, s =>
    match s with
    | [] => none
    | c :: t =>
      if matchAtom a c then reMatchFuel fuel ((a, RQuant.star) :: rest) t
      else none
  | fuel + 1, (a, RQuant.star) :: rest, s =>
    (match s with
     | [] => none
     | c :: t =>
       if matchAtom a c then reMatchFuel fuel ((a, RQuant.star) :: rest) t
       else none)
    <|> reMatchFuel fuel rest s

/-- Matcher entry point with fuel that can never be exhausted. -/
def reMatch (es : List (RAtom × RQuant)) (s : List Char) :
    Option (List Char) :=
  reMatchFuel (es.length + s.length + 1) es s

/-- Model of `re.sub(rf"^{pattern}", "", s)`
(src/s3_upload/utils/upload.py line 119): with the `^` anchor (and no
`re.MULTILINE`) the only position a substitution can happen at is 0, so
the match there, when there is one, is deleted and the rest of the string
kept; when nothing matches at position 0 the string is returned unchanged.
`none` when the interpolated parent path uses regex syntax outside the
modelled fragment. -/
def reSubAnchoredDelete (pattern s : String) : Option String :=
  (parsePattern pattern).map (fun es =>
    match reMatch es s.toList with
    | some rest => String.mk rest
    | none => s)

/-- Python `str.lstrip("/")`: drop every leading slash. -/
def lstripSlash (s : String) : String :=
  String.mk (s.toList.dropWhile (fun c => c == '/'))

/-- Python `os.path.join` for the POSIX flavour, on two components: an
absolute second component wins; otherwise the components are glued,
inserting `/` unless the first is empty or already ends in `/`. -/
def posixJoin (a b : String) : String :=
  if b.toList.head? = some '/' then b
  else if a = "" ∨ a.toList.getLast? = some '/' then a ++ b
  else a ++ "/" ++ b

/-- Python `str.startswith` on whole strings. -/
def strStartsWith (s p : String) : Bool :=
  List.isPrefixOf p.toList s.toList

/-- Remote object key computed by `upload_single_file`
(src/s3_upload/utils/upload.py lines 118-120):
`re.sub(rf"^{parent_path}", "", local_file).lstrip("/")`, joined under
`remote_path` with `os.path.join`, and the result stripped of leading
slashes; `none` when the parent path leaves the modelled regex
fragment. -/
def upload_single_file_key (parent_path remote_path local_file : String) :
    Option String :=
  (reSubAnchoredDelete parent_path local_file).map (fun stripped =>
    lstripSlash (posixJoin remote_path (lstripSlash stripped)))

/-- Key prescribed by the specification's formula
`join(strip_leading_slash(remote), local[len(parent):].lstrip('/'))`. -/
def spec_remote_key (parent_path remote_path local_file : String) : String :=
  posixJoin (lstripSlash remote_path)
    (lstripSlash (String.mk (local_file.toList.drop parent_path.length)))

/-- Success block the claim prescribes for the notification formatter. -/
def specSuccessBlock (completed : List String) : String :=
  ":white_check_mark: S3 Upload: Successfully uploaded "
    ++ toString completed.length ++ " runs"
    ++ String.join (completed.map (fun r => "\n\t:black_square: " ++ r))

/-- Failure block the claim prescribes for the notification formatter. -/
def specFailBlock (failed : List String) : String :=
  ":x: S3 Upload: Failed uploading "
    ++ toString failed.length ++ " runs"
    ++ String.join (failed.map (fun r => "\n\t:black_square: " ++ r))

/-- Concrete set-iteration order witnessing that CPython's `set` order is
not the input order: a `ValidSetEnum` that lists the set of `"a"` and
`"b"` with `"a"` first and every other set in lexicographic order. -/
def setEnumEx : Finset String → List String :=
  fun s =>
    if s = ["b", "a"].toFinset then ["a", "b"]
    else s.sort (fun a b => a ≤ b)

/-- Concrete config with the `max_cores` key omitted, used to show the
monitor-mode shard-count defect is reachable through `verify_config`. -/
def exampleConfig : Config :=
  { max_cores := none
    max_threads := some 4
    log_dir := some "/var/log/s3_upload"
    monitor := [{ monitored_directories := ["/genetics"]
                  bucket := "sequencing-bucket"
                  remote_path := "/"
                  sample_regex := none }] }

/-- Once the prior record is completed, a further call keeps the flag:
the function only ever sets `completed` to `True`, never to `False`. -/
theorem write_completed_of_prior (run_id run_path : String) (d : StateRecord)
    (local_files : List String) (uploaded_files : List (String × String))
    (failed_files : List String) (h : d.completed = true) :
    (write_upload_state_to_log run_id run_path (some d) local_files
      uploaded_files failed_files).completed = true := by
  unfold write_upload_state_to_log
  dsimp only
  split
  · rfl
  · exact h

/-- Claim C1 (amended): the record returned by `write_upload_state_to_log`
has `completed = true` iff the prior record (when one exists) was already
completed, or the attempt's failed list is empty and the number of local
files equals the cumulative uploaded counter — the prior record's
`total_uploaded_files` (0 when there is no prior record) plus the size of
the attempt's uploaded map.  The counter, not the size of the merged
`uploaded_files` map, is what the source compares against. -/
theorem write_upload_state_completed_iff (run_id run_path : String)
    (prior : Option StateRecord) (local_files : List String)
    (uploaded_files : List (String × String)) (failed_files : List String) :
    (write_upload_state_to_log run_id run_path prior local_files
        uploaded_files failed_files).completed = true
      ↔ ((∃ d, prior = some d ∧ d.completed = true)
         ∨ (failed_files = []
            ∧ local_files.length
                = (match prior with
                   | some d => d.total_uploaded_files
                   | none => 0) + uploaded_files.length)) := by
  cases prior with
  | none =>
    unfold write_upload_state_to_log
    dsimp only
    split
    · rename_i hc
      rw [List.length_eq_zero] at hc
      simp [hc.1, hc.2]
    · rename_i hc
      rw [List.length_eq_zero] at hc
      constructor
      · intro h
        exact absurd h (by simp)
      · rintro (⟨d, hd, _⟩ | ⟨h1, h2⟩)
        · exact Option.noConfusion hd
        · exact absurd ⟨h1, h2⟩ hc
  | some d =>
    unfold write_upload_state_to_log
    dsimp only
    split
    · rename_i hc
      rw [List.length_eq_zero] at hc
      simp [hc.1, hc.2]
    · rename_i hc
      rw [List.length_eq_zero] at hc
      constructor
      · intro h
        exact Or.inl ⟨d, rfl, h⟩
      · rintro (⟨d2, hd2, h2⟩ | ⟨h1, h2⟩)
        · cases hd2
          exact h2
        · exact absurd ⟨h1, h2⟩ hc

/-- Claim C1 fails as stated: two chained calls for local files `a`, `b`
where the second call re-uploads `a`.  The second call returns a record
with `completed = true` although the merged `uploaded_files` map has one
entry and there are two local files, because the cumulative counter
reaches 2. -/
theorem claim_C1_counterexample :
    ¬ (((write_upload_state_to_log "run_1" "/seq/run_1"
          (some (write_upload_state_to_log "run_1" "/seq/run_1" none
            ["a", "b"] [("a", "e1")] []))
          ["a", "b"] [("a", "e2")] []).completed = true)
        ↔ (([] : List String) = []
           ∧ (write_upload_state_to_log "run_1" "/seq/run_1"
                (some (write_upload_state_to_log "run_1" "/seq/run_1" none
                  ["a", "b"] [("a", "e1")] []))
                ["a", "b"] [("a", "e2")] []).uploaded_files.length
             = (["a", "b"] : List String).length)) := by decide

/-- Merging a dict whose keys are all fresh appends every binding. -/
theorem dictUpdate_length_of_disjoint (old new : List (String × String))
    (h : ∀ kv ∈ new, ∀ kv2 ∈ old, kv2.1 ≠ kv.1) :
    (dictUpdate old new).length = old.length + new.length := by
  unfold dictUpdate
  rw [List.length_append, List.length_map]
  congr 1
  have hfilter :
      new.filter (fun kv2 => ! old.any (fun kv => kv.1 == kv2.1)) = new := by
    rw [List.filter_eq_self]
    intro kv hkv
    simp only [Bool.not_eq_eq_eq_not, Bool.not_true, List.any_eq_false,
      beq_iff_eq]
    intro kv2 hkv2
    exact h kv hkv kv2 hkv2
  rw [hfilter]

/-- Claim C2 (amended): after every call to `write_upload_state_to_log` —
any prior state, any arguments — `total_failed_upload` equals the length
of `failed_upload_files` (both are assigned from the attempt's failed
list, io.py lines 279-280); and `total_uploaded_files` equals the size of
the merged `uploaded_files` map provided the attempt's uploaded keys are
disjoint from the keys of the prior record's map and the prior record
(when one exists) already satisfied the invariant — because the counter
is incremented by the size of the attempt's map (line 278) rather than
recomputed, a re-uploaded key makes the counter exceed the merged map's
size. -/
theorem write_upload_state_totals (run_id run_path : String)
    (prior : Option StateRecord) (local_files : List String)
    (uploaded_files : List (String × String)) (failed_files : List String) :
    ((write_upload_state_to_log run_id run_path prior local_files
        uploaded_files failed_files).total_failed_upload
      = (write_upload_state_to_log run_id run_path prior local_files
          uploaded_files failed_files).failed_upload_files.length)
    ∧ ((∀ d, prior = some d →
          d.total_uploaded_files = d.uploaded_files.length) →
       (∀ d, prior = some d →
          ∀ kv ∈ uploaded_files, ∀ kv2 ∈ d.uploaded_files, kv2.1 ≠ kv.1) →
       (write_upload_state_to_log run_id run_path prior local_files
          uploaded_files failed_files).total_uploaded_files
        = (write_upload_state_to_log run_id run_path prior local_files
            uploaded_files failed_files).uploaded_files.length) := by
  cases prior with
  | none =>
    unfold write_upload_state_to_log
    dsimp only
    split <;>
      exact ⟨rfl, fun _ _ => by
        rw [dictUpdate_length_of_disjoint]
        · rfl
        · intro kv _ kv2 hkv2
          exact absurd hkv2 (List.not_mem_nil kv2)⟩
  | some d =>
    unfold write_upload_state_to_log
    dsimp only
    split <;>
      exact ⟨rfl, fun hinv hdisj => by
        rw [dictUpdate_length_of_disjoint _ _ (hdisj d rfl), hinv d rfl]⟩

/-- Claim C2 fails as stated: re-uploading `a` for the run of the C1
counterexample leaves a record whose counter is 2 while the merged map
holds the single key `a`. -/
theorem claim_C2_counterexample :
    ¬ ((write_upload_state_to_log "run_1" "/seq/run_1"
          (some (write_upload_state_to_log "run_1" "/seq/run_1" none
            ["a", "b"] [("a", "e1")] []))
          ["a", "b"] [("a", "e2")] []).total_uploaded_files
        = (write_upload_state_to_log "run_1" "/seq/run_1"
            (some (write_upload_state_to_log "run_1" "/seq/run_1" none
              ["a", "b"] [("a", "e1")] []))
            ["a", "b"] [("a", "e2")] []).uploaded_files.length) := by decide

/-- Witness for the amended claim C2: a resume over a prior record whose
stored map holds `a` while the attempt uploads the fresh key `b`, so the
prior-invariant and disjointness hypotheses of the second conjunct are
discharged non-vacuously. -/
theorem write_upload_state_totals_witness :
    ((write_upload_state_to_log "run_1" "/seq/run_1"
        (some { run_id := "run_1", run_path := "/seq/run_1",
                completed := false, total_local_files := 2,
                total_uploaded_files := 1, total_failed_upload := 0,
                failed_upload_files := [],
                uploaded_files := [("a", "e1")] })
        ["a", "b"] [("b", "e2")] []).total_failed_upload
      = (write_upload_state_to_log "run_1" "/seq/run_1"
          (some { run_id := "run_1", run_path := "/seq/run_1",
                  completed := false, total_local_files := 2,
                  total_uploaded_files := 1, total_failed_upload := 0,
                  failed_upload_files := [],
                  uploaded_files := [("a", "e1")] })
          ["a", "b"] [("b", "e2")] []).failed_upload_files.length)
    ∧ ((write_upload_state_to_log "run_1" "/seq/run_1"
        (some { run_id := "run_1", run_path := "/seq/run_1",
                completed := false, total_local_files := 2,
                total_uploaded_files := 1, total_failed_upload := 0,
                failed_upload_files := [],
                uploaded_files := [("a", "e1")] })
        ["a", "b"] [("b", "e2")] []).total_uploaded_files
      = (write_upload_state_to_log "run_1" "/seq/run_1"
          (some { run_id := "run_1", run_path := "/seq/run_1",
                  completed := false, total_local_files := 2,
                  total_uploaded_files := 1, total_failed_upload := 0,
                  failed_upload_files := [],
                  uploaded_files := [("a", "e1")] })
          ["a", "b"] [("b", "e2")] []).uploaded_files.length) := by
  have h := write_upload_state_totals "run_1" "/seq/run_1"
    (some { run_id := "run_1", run_path := "/seq/run_1",
            completed := false, total_local_files := 2,
            total_uploaded_files := 1, total_failed_upload := 0,
            failed_upload_files := [],
            uploaded_files := [("a", "e1")] })
    ["a", "b"] [("b", "e2")] []
  exact ⟨h.1, h.2 (fun d hd => by cases hd; rfl)
    (fun d hd => by cases hd; decide)⟩

/-- Claim C3: across any sequence of further `write_upload_state_to_log`
calls starting from a persisted record with `completed = true`, the flag
stays `true` whatever local, uploaded and failed arguments the later
calls receive: only the initializer writes `false`, and it runs only when
no record exists. -/
theorem state_log_completed_never_reverts (d : StateRecord)
    (attempts : List UploadAttempt) (h : d.completed = true) :
    (runAttempts d attempts).completed = true := by
  induction attempts generalizing d with
  | nil => exact h
  | cons a rest ih =>
    exact ih _ (write_completed_of_prior a.run_id a.run_path d a.local_files
      a.uploaded_files a.failed_files h)

/-- Witness for claim C3: a completed record survives a later call whose
attempt failed on every file. -/
theorem state_log_completed_never_reverts_witness :
    (runAttempts
      { run_id := "run_1", run_path := "/seq/run_1", completed := true,
        total_local_files := 1, total_uploaded_files := 1,
        total_failed_upload := 0, failed_upload_files := [],
        uploaded_files := [("a", "e1")] }
      [{ run_id := "run_1", run_path := "/seq/run_1",
         local_files := ["a", "b"], uploaded_files := [],
         failed_files := ["b"] }]).completed = true :=
  state_log_completed_never_reverts _ _ rfl

/-- Claim C4 fails as stated: the persistence step of
`write_upload_state_to_log` performs no rename at all — it opens the
target itself with truncation and writes into it — so it does not commit
through a sibling temporary file. -/
theorem claim_C4_counterexample :
    ¬ CommitsViaTempRename
        (write_upload_state_file_ops "run_1" "/seq/run_1" none
          "/var/log/s3_upload/uploads/run_1.upload.log.json"
          ["a"] [("a", "e1")] [])
        "/var/log/s3_upload/uploads/run_1.upload.log.json" := by
  rintro ⟨tmp, hne, hopen, hren, hnot⟩
  simp [write_upload_state_file_ops] at hren

/-- Claim C4 (amended): the state-log write is not atomic; the function
serializes the merged record by opening the target path itself in
truncating write mode and dumping the JSON into it — there is no sibling
temporary file and no rename commit point, so an error during
serialization can leave a truncated or partially written target. -/
theorem write_upload_state_ops_direct (run_id run_path : String)
    (prior : Option StateRecord) (log_file : String)
    (local_files : List String) (uploaded_files : List (String × String))
    (failed_files : List String) :
    write_upload_state_file_ops run_id run_path prior log_file local_files
        uploaded_files failed_files
      = [FileOp.openTruncWrite log_file,
         FileOp.writeRecord log_file (write_upload_state_to_log run_id
           run_path prior local_files uploaded_files failed_files),
         FileOp.close log_file]
    ∧ (write_upload_state_file_ops run_id run_path prior log_file
        local_files uploaded_files failed_files).all
          (fun op => match op with
            | FileOp.rename _ _ => false
            | _ => true) = true :=
  ⟨rfl, rfl⟩

/-- Claim C7: the notification formatter yields the success block for a
non-empty completed list, the failure block for a non-empty failed list,
both separated by a blank line when both lists are non-empty, and the
empty string when both are empty. -/
theorem format_message_spec (completed failed : List String) :
    (completed = [] → failed = [] → format_message completed failed = "")
    ∧ (completed ≠ [] → failed = [] →
        format_message completed failed = specSuccessBlock completed)
    ∧ (completed = [] → failed ≠ [] →
        format_message completed failed = specFailBlock failed)
    ∧ (completed ≠ [] → failed ≠ [] →
        format_message completed failed
          = specSuccessBlock completed ++ "\n\n" ++ specFailBlock failed) := by
  refine ⟨?_, ?_, ?_, ?_⟩ <;> intro h1 h2 <;>
    simp [format_message, specSuccessBlock, specFailBlock, h1, h2]

/-- Witness for claim C7 with one completed and one failed run. -/
theorem format_message_spec_witness :
    format_message ["run_1"] ["run_3"]
      = specSuccessBlock ["run_1"] ++ "\n\n" ++ specFailBlock ["run_3"] :=
  (format_message_spec ["run_1"] ["run_3"]).2.2.2 (by decide) (by decide)

/-- Ground truth for the modelled formatter: the three message vectors of
src/tests/unit/test_slack.py (TestFormatCompleteMessage) reproduce. -/
theorem format_message_matches_unit_tests :
    format_message ["run_1", "run_2"] []
      = ":white_check_mark: S3 Upload: Successfully uploaded 2"
        ++ " runs\n\t:black_square: run_1\n\t:black_square: run_2"
    ∧ format_message [] ["run_3", "run_4"]
      = ":x: S3 Upload: Failed uploading 2 runs"
        ++ "\n\t:black_square: run_3\n\t:black_square: run_4"
    ∧ format_message ["run_1", "run_2"] ["run_3", "run_4"]
      = ":white_check_mark: S3 Upload: Successfully uploaded 2"
        ++ " runs\n\t:black_square: run_1\n\t:black_square: run_2\n\n"
        ++ ":x: S3 Upload: Failed uploading 2 runs"
        ++ "\n\t:black_square: run_3\n\t:black_square: run_4" := by
  exact ⟨by decide, by decide, by decide⟩

/-- Every set enumerated by `setEnumEx` is listed exactly once. -/
theorem setEnumEx_valid : ValidSetEnum setEnumEx := by
  intro s
  unfold setEnumEx
  split
  · rename_i h
    exact ⟨by decide, by rw [h]; decide⟩
  · exact ⟨Finset.sort_nodup _ s, Finset.sort_toFinset _ s⟩

/-- Claim C9: under every admissible set-iteration order,
`filter_uploaded_files` returns a duplicate-free list whose elements are
exactly the local files that are not already uploaded; and the input
order of the local files is not preserved — there is an admissible order
and an input on which the output is not a subsequence of the input. -/
theorem filter_uploaded_files_spec :
    (∀ enum, ValidSetEnum enum → ∀ local_files uploaded_files : List String,
      (filter_uploaded_files enum local_files uploaded_files).Nodup
      ∧ ∀ x, x ∈ filter_uploaded_files enum local_files uploaded_files
          ↔ (x ∈ local_files ∧ x ∉ uploaded_files))
    ∧ (∃ enum local_files uploaded_files, ValidSetEnum enum
        ∧ ¬ (filter_uploaded_files enum local_files
              uploaded_files).Sublist local_files) := by
  constructor
  · intro enum he local_files uploaded_files
    obtain ⟨hnd, hfin⟩ :=
      he (local_files.toFinset \ uploaded_files.toFinset)
    refine ⟨hnd, fun x => ?_⟩
    unfold filter_uploaded_files
    rw [← List.mem_toFinset, hfin, Finset.mem_sdiff, List.mem_toFinset,
      List.mem_toFinset]
  · refine ⟨setEnumEx, ["b", "a"], [], setEnumEx_valid, ?_⟩
    have h : filter_uploaded_files setEnumEx ["b", "a"] [] = ["a", "b"] := by
      decide
    rw [h]
    decide

/-- Witness for claim C9 under the concrete enumeration `setEnumEx`. -/
theorem filter_uploaded_files_spec_witness :
    (filter_uploaded_files setEnumEx ["a", "b"] ["a"]).Nodup
    ∧ ("b" ∈ filter_uploaded_files setEnumEx ["a", "b"] ["a"]
        ↔ ("b" ∈ ["a", "b"] ∧ "b" ∉ (["a"] : List String))) := by
  have h := filter_uploaded_files_spec.1 setEnumEx setEnumEx_valid
    ["a", "b"] ["a"]
  exact ⟨h.1, h.2 "b"⟩

/-- Claim C10: a config without the `max_cores` key passes `verify_config`
(whose `isinstance` check defaults the value to `0`), yet monitor mode
binds `cores` to the `cpu_count` function object
(`config.get("max_cores", cpu_count)` — no call parentheses), so the
partitioning step `range(0, len(files), n)` raises `TypeError` for every
non-empty file list instead of producing shards. -/
theorem monitor_max_cores_defect :
    (∀ validRegex, verify_config_errors validRegex exampleConfig = [])
    ∧ monitor_cores exampleConfig = PyCores.cpuCountFunc
    ∧ (∀ files : List String, files ≠ [] →
        split_file_list_by_cores_py files (monitor_cores exampleConfig)
          = Except.error
            "TypeError: builtin_function_or_method object cannot be interpreted as an integer") := by
  exact ⟨fun _ => rfl, rfl, fun _ _ => rfl⟩

/-- Witness for claim C10 at a one-file upload list. -/
theorem monitor_max_cores_defect_witness :
    split_file_list_by_cores_py ["/genetics/run_1/RunInfo.xml"]
        (monitor_cores exampleConfig)
      = Except.error
        "TypeError: builtin_function_or_method object cannot be interpreted as an integer" :=
  monitor_max_cores_defect.2.2 ["/genetics/run_1/RunInfo.xml"] (by decide)

/-- Claim C6 fails on the code: for the parent path `/a+b` — a directory
name containing `+`, interpolated unescaped into the pattern
`rf"^{parent_path}"` — the regex `^/a+b` does not match the local path
`/a+b/run1/file.txt` even though the path literally starts with the
parent, so the parent prefix is not stripped and the produced key keeps
it, diverging from the specified
`join(strip_leading_slash(remote), local[len(parent):].lstrip('/'))`. -/
theorem upload_single_file_key_not_spec_remote_key :
    strStartsWith "/a+b/run1/file.txt" "/a+b" = true
    ∧ upload_single_file_key "/a+b" "bucket_dir1" "/a+b/run1/file.txt"
        = some "bucket_dir1/a+b/run1/file.txt"
    ∧ spec_remote_key "/a+b" "bucket_dir1" "/a+b/run1/file.txt"
        = "bucket_dir1/run1/file.txt"
    ∧ upload_single_file_key "/a+b" "bucket_dir1" "/a+b/run1/file.txt"
        ≠ some (spec_remote_key "/a+b" "bucket_dir1" "/a+b/run1/file.txt") := by
  exact ⟨by decide, by decide, by decide, by decide⟩

/-- Ground truth for the regex model: on the specification's own examples
— parent paths free of regex metacharacters — the computed key and the
specified formula agree. -/
theorem upload_single_file_key_spec_examples :
    upload_single_file_key "/path/to/monitored_dir/" "/bucket_dir1/"
        "/path/to/monitored_dir/run1/Samplesheet.csv"
      = some "bucket_dir1/run1/Samplesheet.csv"
    ∧ spec_remote_key "/path/to/monitored_dir/" "/bucket_dir1/"
        "/path/to/monitored_dir/run1/Samplesheet.csv"
      = "bucket_dir1/run1/Samplesheet.csv"
    ∧ upload_single_file_key "/one_level_parent/" "/"
        "/one_level_parent/run1/Samplesheet.csv"
      = some "run1/Samplesheet.csv"
    ∧ spec_remote_key "/one_level_parent/" "/"
        "/one_level_parent/run1/Samplesheet.csv"
      = "run1/Samplesheet.csv" := by
  exact ⟨by decide, by decide, by decide, by decide⟩

/-- Position reported by `contents.index(mid)` when `mid` does not occur
earlier: the length of the prefix before it. -/
theorem indexOf_append_cons_of_not_mem (pre post : List String)
    (mid : String) (h : mid ∉ pre) :
    (pre ++ mid :: post).indexOf mid = pre.length := by
  induction pre with
  | nil => simp
  | cons a pre ih =>
    have hne : a ≠ mid := fun he => h (he ▸ List.mem_cons_self a pre)
    rw [List.cons_append, List.indexOf_cons_ne _ hne,
      ih (fun hm => h (List.mem_cons_of_mem a hm)), List.length_cons]

/-- Extraction result of `get_samplenames_from_samplesheet` when the
samplesheet holds exactly one line beginning with `Sample_ID`: the first
comma field of every later line. -/
theorem get_samplenames_of_unique (pre post : List String) (mid : String)
    (hmid : startsWithSampleID mid = true)
    (hcount : (pre ++ mid :: post).countP startsWithSampleID = 1) :
    get_samplenames_from_samplesheet (pre ++ mid :: post)
      = some (post.map firstCommaField) := by
  have hsplit : (pre ++ mid :: post).countP startsWithSampleID
      = pre.countP startsWithSampleID
        + (post.countP startsWithSampleID + 1) := by
    rw [List.countP_append, List.countP_cons, hmid]
    simp [Nat.add_assoc]
  have hcpre : pre.countP startsWithSampleID = 0 := by omega
  have hcpost : post.countP startsWithSampleID = 0 := by omega
  have hfpre : pre.filter startsWithSampleID = [] :=
    List.filter_eq_nil_iff.mpr (by
      intro a ha
      have := List.countP_eq_zero.mp hcpre a ha
      simpa using this)
  have hfpost : post.filter startsWithSampleID = [] :=
    List.filter_eq_nil_iff.mpr (by
      intro a ha
      have := List.countP_eq_zero.mp hcpost a ha
      simpa using this)
  have hfilter : (pre ++ mid :: post).filter startsWithSampleID = [mid] := by
    rw [List.filter_append, hfpre, List.filter_cons_of_pos hmid, hfpost]
    simp
  have hnotmem : mid ∉ pre := fun hm =>
    by simpa [hmid] using List.countP_eq_zero.mp hcpre mid hm
  unfold get_samplenames_from_samplesheet
  dsimp only
  rw [hfilter, List.map_singleton,
    indexOf_append_cons_of_not_mem pre post mid hnotmem]
  have hdrop : (pre ++ mid :: post).drop (pre.length + 1) = post := by
    have he : pre ++ mid :: post = (pre ++ [mid]) ++ post := by simp
    have hl : (pre ++ [mid]).length = pre.length + 1 := by simp
    rw [he, ← hl, List.drop_left]
  simp [hdrop]

/-- Claim C8: the uploadability check returns `some true` iff a non-empty
name list is extracted and every name matches; `some false` iff a list is
extracted with at least one non-matching name; `none` iff extraction
fails or extracts zero names — and extraction fails exactly when the
number of lines beginning with `Sample_ID` differs from one, while with a
unique such line the names are the first comma field of every later
line. -/
theorem check_all_uploadable_samples_spec (contents : List String)
    (p : String → Bool) :
    (get_samplenames_from_samplesheet contents = none
      ↔ contents.countP startsWithSampleID ≠ 1)
    ∧ (∀ pre mid post, contents = pre ++ mid :: post →
        startsWithSampleID mid = true →
        contents.countP startsWithSampleID = 1 →
        get_samplenames_from_samplesheet contents
          = some (post.map firstCommaField))
    ∧ (check_all_uploadable_samples contents p = some true
        ↔ ∃ ns, get_samplenames_from_samplesheet contents = some ns
            ∧ ns ≠ [] ∧ ∀ x ∈ ns, p x = true)
    ∧ (check_all_uploadable_samples contents p = some false
        ↔ ∃ ns, get_samplenames_from_samplesheet contents = some ns
            ∧ ∃ x ∈ ns, p x = false)
    ∧ (check_all_uploadable_samples contents p = none
        ↔ (get_samplenames_from_samplesheet contents = none
            ∨ get_samplenames_from_samplesheet contents = some [])) := by
  have hlen : ((contents.filter startsWithSampleID).map
      (fun l => contents.indexOf l + 1)).length
      = contents.countP startsWithSampleID := by
    rw [List.length_map, ← List.countP_eq_length_filter]
  refine ⟨?_, ?_, ?_, ?_, ?_⟩
  · unfold get_samplenames_from_samplesheet
    dsimp only
    split
    · rename_i h
      exact iff_of_true rfl (hlen ▸ h)
    · rename_i h
      have h1 : contents.countP startsWithSampleID = 1 := by
        rw [← hlen]
        exact not_not.mp h
      exact iff_of_false (by simp) (by simp [h1])
  · intro pre mid post hc hmid hcount
    subst hc
    exact get_samplenames_of_unique pre post mid hmid hcount
  · unfold check_all_uploadable_samples
    cases hg : get_samplenames_from_samplesheet contents with
    | none => simp
    | some ns =>
      by_cases hns : ns = []
      · subst hns
        simp
      · simp [hns, List.all_eq_true]
  · unfold check_all_uploadable_samples
    cases hg : get_samplenames_from_samplesheet contents with
    | none => simp
    | some ns =>
      by_cases hns : ns = []
      · subst hns
        simp
      · simp [hns, List.all_eq_false]
  · unfold check_all_uploadable_samples
    cases hg : get_samplenames_from_samplesheet contents with
    | none => simp
    | some ns =>
      by_cases hns : ns = []
      · subst hns
        simp
      · simp [hns]

/-- Witness for claim C8 on a three-line samplesheet with a unique
`Sample_ID` line followed by one sample line. -/
theorem check_all_uploadable_samples_spec_witness :
    get_samplenames_from_samplesheet ["header", "Sample_ID,x", "s1,a"]
      = some ["s1"] :=
  ((check_all_uploadable_samples_spec ["header", "Sample_ID,x", "s1,a"]
      (fun _ => true)).2.1
    ["header"] "Sample_ID,x" ["s1,a"] rfl (by decide) (by decide)).trans
    (by decide)

/-- Slice-by-range chunking coincides with the recursive chunking. -/
theorem range_map_chunk (k n : Nat) (files : List String) :
    (List.range k).map (fun i => (files.drop (i * n)).take n)
      = chunksN k n files := by
  induction k generalizing files with
  | zero => rfl
  | succ k ih =>
    rw [List.range_succ_eq_map, List.map_cons, List.map_map]
    refine congrArg₂ List.cons (by simp) ?_
    rw [← ih (files.drop n)]
    refine List.map_congr_left (fun i _ => ?_)
    simp only [Function.comp_apply]
    rw [List.drop_drop, Nat.succ_mul, Nat.add_comm (i * n) n]

/-- Number of slices of `range(0, len(files), n)`. -/
theorem splitChunks_eq_chunksN (files : List String) (n : Nat) :
    splitChunks files n = chunksN ((files.length + n - 1) / n) n files :=
  range_map_chunk _ n files

/-- Recursive chunking always yields exactly `k` chunks. -/
theorem chunksN_length (k n : Nat) (files : List String) :
    (chunksN k n files).length = k := by
  induction k generalizing files with
  | zero => rfl
  | succ k ih => simp [chunksN, ih]

/-- Concatenating enough chunks recovers the file list. -/
theorem chunksN_flatten (k n : Nat) (files : List String)
    (h : files.length ≤ k * n) : (chunksN k n files).flatten = files := by
  induction k generalizing files with
  | zero =>
    have hf : files = [] := List.eq_nil_of_length_eq_zero (by omega)
    simp [chunksN, hf]
  | succ k ih =>
    simp only [chunksN, List.flatten_cons]
    rw [ih (files.drop n) (by
      rw [List.length_drop]
      rw [Nat.succ_mul] at h
      omega)]
    exact List.take_append_drop n files

/-- Every element of a chunk is an element of the chunked list. -/
theorem chunksN_mem_subset (k n : Nat) (files : List String)
    (c : List String) (hc : c ∈ chunksN k n files) :
    ∀ x ∈ c, x ∈ files := by
  induction k generalizing files with
  | zero => exact absurd hc (List.not_mem_nil c)
  | succ k ih =>
    simp only [chunksN, List.mem_cons] at hc
    rcases hc with hc | hc
    · exact fun x hx => List.take_subset n files (hc ▸ hx)
    · exact fun x hx => List.drop_subset n files (ih (files.drop n) hc x hx)

/-- Chunks never exceed the slice width. -/
theorem chunksN_mem_length_le (k n : Nat) (files : List String)
    (c : List String) (hc : c ∈ chunksN k n files) : c.length ≤ n := by
  induction k generalizing files with
  | zero => exact absurd hc (List.not_mem_nil c)
  | succ k ih =>
    simp only [chunksN, List.mem_cons] at hc
    rcases hc with hc | hc
    · simp [hc]
    · exact ih (files.drop n) hc

/-- The longest chunk is no longer than the slice width or the list. -/
theorem maxChunkLen_chunksN_le (k n : Nat) (files : List String) :
    maxChunkLen (chunksN k n files) ≤ min n files.length := by
  induction k generalizing files with
  | zero => simp [chunksN, maxChunkLen]
  | succ k ih =>
    have hrest := ih (files.drop n)
    simp only [chunksN, maxChunkLen, List.foldr_cons] at hrest ⊢
    rw [List.length_take, List.length_drop] at *
    omega

/-- With at least one chunk, the longest chunk is the first one. -/
theorem maxChunkLen_chunksN_succ (k n : Nat) (files : List String) :
    maxChunkLen (chunksN (k + 1) n files) = min n files.length := by
  have hrest := maxChunkLen_chunksN_le k n (files.drop n)
  simp only [chunksN, maxChunkLen, List.foldr_cons] at hrest ⊢
  rw [List.length_take, List.length_drop] at *
  omega

/-- Column of a chunk list whose head still reaches index `j`: the head
contributes its `j`-th element (no file path is the empty string, so the
falsy filter keeps it). -/
theorem zipLongestColumn_cons_of_lt (c : List String)
    (cs : List (List String)) (j : Nat) (hj : j < c.length)
    (hc : ∀ x ∈ c, x ≠ "") :
    zipLongestColumn (c :: cs) j = c.getD j "" :: zipLongestColumn cs j := by
  unfold zipLongestColumn
  rw [List.filterMap_cons]
  have hsome : c.get? j = some (c.getD j "") := by
    rw [List.get?_eq_getElem?, List.getElem?_eq_getElem hj,
      List.getD_eq_getElem c "" hj]
  have hmem : c.getD j "" ∈ c := by
    rw [List.getD_eq_getElem c "" hj]
    exact List.getElem_mem hj
  rw [hsome]
  dsimp only
  rw [if_neg (hc _ hmem)]

/-- Column of a chunk list whose head is too short: the head only adds
`None` padding, which the comprehension drops. -/
theorem zipLongestColumn_cons_of_le (c : List String)
    (cs : List (List String)) (j : Nat) (hj : c.length ≤ j) :
    zipLongestColumn (c :: cs) j = zipLongestColumn cs j := by
  unfold zipLongestColumn
  rw [List.filterMap_cons, List.get?_eq_getElem?, List.getElem?_eq_none hj]

/-- Columns past the longest chunk are empty. -/
theorem zipLongestColumn_eq_nil (chunks : List (List String)) (j : Nat)
    (h : maxChunkLen chunks ≤ j) : zipLongestColumn chunks j = [] := by
  induction chunks with
  | nil => rfl
  | cons c cs ih =>
    simp only [maxChunkLen, List.foldr_cons] at h
    have h1 : c.length ≤ j := by omega
    have h2 : maxChunkLen cs ≤ j := by simp only [maxChunkLen]; omega
    rw [zipLongestColumn_cons_of_le c cs j h1, ih h2]

/-- Length of a column over chunks free of empty strings: the number of
chunks long enough to reach the column's index. -/
theorem zipLongestColumn_length (chunks : List (List String)) (j : Nat)
    (hne : ∀ c ∈ chunks, ∀ x ∈ c, x ≠ "") :
    (zipLongestColumn chunks j).length
      = chunks.countP (fun c => decide (j < c.length)) := by
  induction chunks with
  | nil => rfl
  | cons c cs ih =>
    have hcs : ∀ c2 ∈ cs, ∀ x ∈ c2, x ≠ "" :=
      fun c2 h => hne c2 (List.mem_cons_of_mem c h)
    rcases Nat.lt_or_ge j c.length with hj | hj
    · rw [zipLongestColumn_cons_of_lt c cs j hj (hne c (List.mem_cons_self c cs)),
        List.length_cons, ih hcs, List.countP_cons]
      simp [hj]
    · rw [zipLongestColumn_cons_of_le c cs j hj, ih hcs, List.countP_cons]
      simp [Nat.not_lt.mpr hj]

/-- Shards are never more numerous than chunks. -/
theorem countP_chunksN_le (k n : Nat) (files : List String) (j : Nat) :
    (chunksN k n files).countP (fun c => decide (j < c.length)) ≤ k := by
  calc (chunksN k n files).countP (fun c => decide (j < c.length))
      ≤ (chunksN k n files).length := List.countP_le_length _
    _ = k := chunksN_length k n files

/-- For a column index inside the slice width, at most one chunk — the
final short one — fails to reach it. -/
theorem countP_chunksN_ge (k n : Nat) (files : List String) (j : Nat)
    (hj : j < n) (hk : k * n < files.length + n) :
    k ≤ (chunksN k n files).countP (fun c => decide (j < c.length)) + 1 := by
  induction k generalizing files with
  | zero => omega
  | succ k ih =>
    rw [Nat.succ_mul] at hk
    have hk2 : k * n < files.length := by omega
    simp only [chunksN, List.countP_cons]
    rcases Nat.lt_or_ge j (files.take n).length with hjc | hjc
    · have ihh := ih (files.drop n) (by rw [List.length_drop]; omega)
      simp only [hjc, decide_eq_true_eq, if_pos]
      omega
    · rw [List.length_take] at hjc
      have hk0 : k = 0 := by
        by_contra h0
        have h2 : n ≤ k * n := Nat.le_mul_of_pos_left n (by omega)
        omega
      subst hk0
      simp

/-- Splitting off the head of every column: a permutation collecting the
heads first. -/
theorem flatten_map_cons_perm (l : List Nat) (a : Nat → String)
    (b : Nat → List String) :
    ((l.map (fun j => a j :: b j)).flatten).Perm
      (l.map a ++ (l.map b).flatten) := by
  induction l with
  | nil => exact List.Perm.refl []
  | cons x xs ih =>
    simp only [List.map_cons, List.flatten_cons, List.cons_append]
    refine List.Perm.cons (a x) ?_
    have h1 : (b x ++ (xs.map (fun j => a j :: b j)).flatten).Perm
        (b x ++ (xs.map a ++ (xs.map b).flatten)) :=
      List.Perm.append_left _ ih
    have h2 : (b x ++ (xs.map a ++ (xs.map b).flatten)).Perm
        (xs.map a ++ (b x ++ (xs.map b).flatten)) := by
      rw [← List.append_assoc, ← List.append_assoc]
      exact List.Perm.append_right _ List.perm_append_comm
    exact h1.trans h2

/-- Reading a list off by positions reproduces it. -/
theorem range_map_getD (c : List String) :
    (List.range c.length).map (fun j => c.getD j "") = c := by
  apply List.ext_getElem
  · simp
  · intro i h1 h2
    simp only [List.getElem_map, List.getElem_range]
    exact List.getD_eq_getElem c "" h2

/-- Transposing the chunks of an empty-string-free list is a permutation:
the flattened columns over any wide enough range rearrange the flattened
chunks. -/
theorem chunksN_cols_flatten_perm (n : Nat) :
    ∀ (k : Nat) (files : List String) (L : Nat),
      (∀ x ∈ files, x ≠ "") →
      maxChunkLen (chunksN k n files) ≤ L →
      (((List.range L).map (zipLongestColumn (chunksN k n files))).flatten).Perm
        (chunksN k n files).flatten := by
  intro k
  induction k with
  | zero =>
    intro files L hne hL
    have hflat : ((List.range L).map
        (zipLongestColumn (chunksN 0 n files))).flatten = [] := by
      rw [List.flatten_eq_nil_iff]
      intro l hl
      rcases List.mem_map.mp hl with ⟨j, _, rfl⟩
      rfl
    rw [hflat]
    exact List.Perm.refl []
  | succ k ih =>
    intro files L hne hL
    by_cases hf : files = []
    · subst hf
      have hmax : maxChunkLen (chunksN (k + 1) n ([] : List String)) = 0 := by
        have h := maxChunkLen_chunksN_succ k n ([] : List String)
        simpa using h
      have hflat1 : ((List.range L).map
          (zipLongestColumn (chunksN (k + 1) n ([] : List String)))).flatten
          = [] := by
        rw [List.flatten_eq_nil_iff]
        intro l hl
        rcases List.mem_map.mp hl with ⟨j, _, rfl⟩
        exact zipLongestColumn_eq_nil _ j (by omega)
      have hflat2 : (chunksN (k + 1) n ([] : List String)).flatten = [] :=
        chunksN_flatten _ n [] (by simp)
      rw [hflat1, hflat2]
    · have hchunk : chunksN (k + 1) n files
          = files.take n :: chunksN k n (files.drop n) := rfl
      have hclen : (files.take n).length = min n files.length :=
        List.length_take n files
      have hmaxcs : maxChunkLen (chunksN k n (files.drop n))
          ≤ (files.take n).length := by
        have h := maxChunkLen_chunksN_le k n (files.drop n)
        rw [List.length_drop] at h
        omega
      have hLc : (files.take n).length ≤ L := by
        rw [maxChunkLen_chunksN_succ k n files] at hL
        omega
      have hnec : ∀ x ∈ files.take n, x ≠ "" :=
        fun x hx => hne x (List.take_subset n files hx)
      have hnedrop : ∀ x ∈ files.drop n, x ≠ "" :=
        fun x hx => hne x (List.drop_subset n files hx)
      have hmax_cons : maxChunkLen (chunksN (k + 1) n files)
          = (files.take n).length := by
        rw [maxChunkLen_chunksN_succ k n files, hclen]
      have hrange : List.range L = List.range (files.take n).length
          ++ (List.range (L - (files.take n).length)).map
              (fun i => (files.take n).length + i) := by
        rw [← List.range_add]
        congr 1
        omega
      rw [hchunk] at hmax_cons
      rw [hchunk, hrange, List.map_append, List.flatten_append]
      have hsecond : (((List.range (L - (files.take n).length)).map
          (fun i => (files.take n).length + i)).map
            (zipLongestColumn
              (files.take n :: chunksN k n (files.drop n)))).flatten = [] := by
        rw [List.flatten_eq_nil_iff]
        intro l hl
        rcases List.mem_map.mp hl with ⟨j, hj, rfl⟩
        rcases List.mem_map.mp hj with ⟨i, _, rfl⟩
        exact zipLongestColumn_eq_nil _ _ (by omega)
      rw [hsecond, List.append_nil]
      have hcols : ∀ j ∈ List.range (files.take n).length,
          zipLongestColumn (files.take n :: chunksN k n (files.drop n)) j
            = (files.take n).getD j ""
              :: zipLongestColumn (chunksN k n (files.drop n)) j :=
        fun j hj => zipLongestColumn_cons_of_lt _ _ j
          (List.mem_range.mp hj) hnec
      rw [List.map_congr_left hcols]
      refine (flatten_map_cons_perm (List.range (files.take n).length)
        (fun j => (files.take n).getD j "")
        (fun j => zipLongestColumn (chunksN k n (files.drop n)) j)).trans ?_
      rw [range_map_getD (files.take n)]
      simp only [List.flatten_cons]
      exact List.Perm.append_left (files.take n)
        (ih (files.drop n) (files.take n).length hnedrop hmaxcs)

/-- Claim C5 fails as stated for a list holding an empty string: the
comprehension `[x for x in y if x]` drops falsy entries — the `None`
padding, but also the empty path — so the single file `""` with one shard
yields one empty shard and the concatenation does not recover the
input. -/
theorem claim_C5_counterexample :
    split_file_list_by_cores [""] 1 = [[]]
    ∧ ¬ ((split_file_list_by_cores [""] 1).flatten.Perm [""]) := by
  exact ⟨by decide, by decide⟩

/-- Claim C5 (amended): for every list of non-empty path strings and
every shard count `n ≥ 1`, the shards concatenate to a permutation of the
input, no shard exceeds the ceiling of `|F| / n`, any two shard lengths
differ by at most one, fewer files than shards yield one singleton shard
per file, and the empty input yields no shards. -/
theorem split_file_list_by_cores_spec (files : List String) (n : Nat)
    (hn : 0 < n) (hne : ∀ x ∈ files, x ≠ "") :
    ((split_file_list_by_cores files n).flatten.Perm files)
    ∧ (∀ shard ∈ split_file_list_by_cores files n,
        shard.length ≤ (files.length + n - 1) / n)
    ∧ (∀ s ∈ split_file_list_by_cores files n,
        ∀ t ∈ split_file_list_by_cores files n, s.length ≤ t.length + 1)
    ∧ (files.length < n →
        (split_file_list_by_cores files n).length = files.length
        ∧ (∀ shard ∈ split_file_list_by_cores files n, shard.length = 1))
    ∧ (files = [] → split_file_list_by_cores files n = []) := by
  have hsplit : split_file_list_by_cores files n
      = (List.range (maxChunkLen
            (chunksN ((files.length + n - 1) / n) n files))).map
          (zipLongestColumn (chunksN ((files.length + n - 1) / n) n files)) := by
    unfold split_file_list_by_cores
    rw [splitChunks_eq_chunksN]
  have hKmul : files.length ≤ ((files.length + n - 1) / n) * n := by
    rcases Nat.eq_zero_or_pos files.length with hm | hm
    · omega
    · have h0 : files.length + n - 1 = (files.length - 1) + n := by omega
      have h1 : (files.length + n - 1) / n = (files.length - 1) / n + 1 := by
        rw [h0, Nat.add_div_right _ hn]
      have h2 : (files.length - 1) / n < (files.length + n - 1) / n := by omega
      have h3 := (Nat.div_lt_iff_lt_mul hn).mp h2
      omega
  have hKup : ((files.length + n - 1) / n) * n < files.length + n := by
    have h1 : ((files.length + n - 1) / n) * n ≤ files.length + n - 1 :=
      Nat.div_mul_le_self _ n
    omega
  have hchne : ∀ c ∈ chunksN ((files.length + n - 1) / n) n files,
      ∀ x ∈ c, x ≠ "" :=
    fun c hc x hx => hne x (chunksN_mem_subset _ n files c hc x hx)
  have hshard : ∀ shard ∈ split_file_list_by_cores files n,
      ∃ j, j < maxChunkLen (chunksN ((files.length + n - 1) / n) n files)
        ∧ shard
          = zipLongestColumn (chunksN ((files.length + n - 1) / n) n files) j := by
    intro shard hs
    rw [hsplit] at hs
    rcases List.mem_map.mp hs with ⟨j, hj, rfl⟩
    exact ⟨j, List.mem_range.mp hj, rfl⟩
  have hLle := maxChunkLen_chunksN_le ((files.length + n - 1) / n) n files
  have hlen : ∀ j,
      (zipLongestColumn (chunksN ((files.length + n - 1) / n) n files) j).length
      = (chunksN ((files.length + n - 1) / n) n files).countP
          (fun c => decide (j < c.length)) :=
    fun j => zipLongestColumn_length _ j hchne
  have hnil : split_file_list_by_cores ([] : List String) n = [] := by
    unfold split_file_list_by_cores
    rw [splitChunks_eq_chunksN]
    have h0 : ((List.length ([] : List String)) + n - 1) / n = 0 := by
      simp only [List.length_nil]
      exact Nat.div_eq_of_lt (by omega)
    rw [h0]
    rfl
  refine ⟨?_, ?_, ?_, ?_, ?_⟩
  · have hp := chunksN_cols_flatten_perm n ((files.length + n - 1) / n) files
      (maxChunkLen (chunksN ((files.length + n - 1) / n) n files)) hne
      (le_refl _)
    rw [chunksN_flatten _ n files hKmul] at hp
    rw [hsplit]
    exact hp
  · intro shard hs
    rcases hshard shard hs with ⟨j, hj, rfl⟩
    rw [hlen j]
    exact countP_chunksN_le _ n files j
  · intro s hs t ht
    rcases hshard s hs with ⟨j1, hj1, rfl⟩
    rcases hshard t ht with ⟨j2, hj2, rfl⟩
    rw [hlen j1, hlen j2]
    have h1 := countP_chunksN_le ((files.length + n - 1) / n) n files j1
    have h2 := countP_chunksN_ge ((files.length + n - 1) / n) n files j2
      (by omega) hKup
    omega
  · intro hmn
    by_cases hf : files = []
    · subst hf
      refine ⟨by rw [hnil]; rfl, ?_⟩
      intro shard hs
      rw [hnil] at hs
      exact absurd hs (List.not_mem_nil shard)
    · have hm1 : 1 ≤ files.length := List.length_pos.mpr hf
      have hK1 : (files.length + n - 1) / n = 1 :=
        Nat.div_eq_of_lt_le (by omega) (by omega)
      have hchunks1 : chunksN ((files.length + n - 1) / n) n files
          = [files] := by
        rw [hK1]
        show files.take n :: chunksN 0 n (files.drop n) = [files]
        rw [List.take_of_length_le (by omega)]
        rfl
      have hmax1 : maxChunkLen (chunksN ((files.length + n - 1) / n) n files)
          = files.length := by
        rw [hchunks1]
        simp [maxChunkLen]
      constructor
      · rw [hsplit, List.length_map, List.length_range, hmax1]
      · intro shard hs
        rcases hshard shard hs with ⟨j, hj, rfl⟩
        rw [hmax1] at hj
        rw [hchunks1,
          zipLongestColumn_cons_of_lt files [] j hj (fun x hx => hne x hx)]
        rfl
  · intro hf
    subst hf
    exact hnil

/-- Witness for the amended claim C5 on three files and two shards. -/
theorem split_file_list_by_cores_spec_witness :
    (split_file_list_by_cores ["run/a", "run/b", "run/c"] 2).flatten.Perm
      ["run/a", "run/b", "run/c"] :=
  (split_file_list_by_cores_spec ["run/a", "run/b", "run/c"] 2 (by decide)
    (by decide)).1

end S3Upload
